import Mathlib

/-!
Shallow embedding of the aish agent execution core (src/security.rs,
src/fs_ops.rs, src/shell.rs, src/cli/app.rs) and proofs about it.

Rust paths are modelled as their raw strings; the component, file-name and
extension functions below follow the Unix semantics of Rust's std::path.
External collaborators (the serde JSON parser, the regex engine, the child
process, the interactive prompt) enter as explicit parameters or oracles.
-/

namespace Aish

/-! ## Path model (Unix semantics of Rust std::path over strings) -/

/-- Split a character list on a separator character; mirrors how a Unix path
string decomposes into slash-separated segments. -/
def splitOnChar (sep : Char) : List Char → List (List Char)
  | [] => [[]]
  | c :: cs =>
    let rest := splitOnChar sep cs
    if c = sep then [] :: rest
    else
      match rest with
      | [] => [[c]]
      | r :: rs => (c :: r) :: rs

/-- The slash-separated raw segments of a path string. -/
def pathSegments (path : String) : List String :=
  (splitOnChar '/' path.data).map List.asString

/-- Rust Path::is_absolute on Unix: the path begins with a slash. -/
def isAbsolute (path : String) : Bool :=
  match path.data with
  | [] => false
  | c :: _ => c = '/'

/-- One normalized component of a path, as in Rust std::path::Component. -/
inductive PathComponent where
  | rootDir
  | curDir
  | parentDir
  | normal (s : String)
deriving DecidableEq, BEq, Repr

/-- A raw segment mapped to its normalized component, dropping empty and
"." segments (Rust Components iteration). -/
def segComponent (s : String) : Option PathComponent :=
  if s = "" ∨ s = "." then none
  else if s = ".." then some .parentDir
  else some (.normal s)

/-- Rust Path::components (Unix): a root marker for absolute paths, a leading
CurDir kept only at the front, empty and interior "." segments dropped. -/
def pathComponents (path : String) : List PathComponent :=
  match pathSegments path with
  | [] => []
  | first :: rest =>
    if isAbsolute path then
      PathComponent.rootDir :: (first :: rest).filterMap segComponent
    else
      (if first = "." then [PathComponent.curDir] else (segComponent first).toList)
        ++ rest.filterMap segComponent

/-- Rust Path::file_name: the last normal component, if any. -/
def fileName (path : String) : Option String :=
  let segs := (pathSegments path).filter fun s => !(s = "" ∨ s = "." : Bool)
  match segs.getLast? with
  | none => none
  | some l => if l = ".." then none else some l

/-- Split a character list at its last dot: returns the stem and the part
after the final dot, or none when no dot occurs. -/
def takeAfterLastDot : List Char → Option (List Char × List Char)
  | [] => none
  | c :: cs =>
    match takeAfterLastDot cs with
    | some (stem, ext) => some (c :: stem, ext)
    | none => if c = '.' then some ([], cs) else none

/-- Rust Path::extension: the portion of the file name after its final dot,
none when there is no dot or the only dot is the leading character. -/
def fileExtension (path : String) : Option String :=
  match fileName path with
  | none => none
  | some f =>
    match takeAfterLastDot f.data with
    | none => none
    | some (stem, ext) => if stem = [] then none else some ext.asString

/-- Rust Path::starts_with: component-wise prefix test. -/
def startsWithPath (path base : String) : Bool :=
  (pathComponents base).isPrefixOf (pathComponents path)

/-- Render a normalized component back to its string form. -/
def componentStr : PathComponent → String
  | .rootDir => "/"
  | .curDir => "."
  | .parentDir => ".."
  | .normal s => s

/-- Render a component list back to a path string. -/
def renderComponents : List PathComponent → String
  | [] => ""
  | [c] => componentStr c
  | .rootDir :: rest => "/" ++ String.intercalate "/" (rest.map componentStr)
  | c :: rest => componentStr c ++ "/" ++ String.intercalate "/" (rest.map componentStr)

/-- Rust Path::parent: the path minus its last component; none for the empty
path and for the bare root. -/
def parentPath (path : String) : Option String :=
  match pathComponents path with
  | [] => none
  | [PathComponent.rootDir] => none
  | comps => some (renderComponents comps.dropLast)

/-! ## Configuration (src/config.rs) -/

/-- The six per-operation-kind boolean permissions (config.rs
OperationPermissions; the TOML keys are the dotted kind names). -/
structure OperationPermissions where
  fs_makedir : Bool
  fs_makefile : Bool
  fs_writefile : Bool
  fs_readfile : Bool
  fs_listdir : Bool
  shell : Bool
deriving DecidableEq, Repr

/-- config.rs SecurityConfig. -/
structure SecurityConfig where
  allow_absolute_paths : Bool
  allow_config_path_access : Bool
  blocked_extensions : List String
  allowed_operations : OperationPermissions
deriving DecidableEq, Repr

/-- config.rs Config, restricted to the fields the execution core reads. -/
structure Config where
  security : SecurityConfig
  whitelist : List String
deriving DecidableEq, Repr

/-! ## Security gate (src/security.rs) -/

/-- The typed failures raised by the security gate and the dispatcher's own
bail sites; message below reproduces the exact Rust format strings. -/
inductive SecurityError where
  | absoluteNotAllowed
  | configDirNotAllowed
  | extensionBlocked (ext : String)
  | pathIgnored
  | operationNotAllowed (op : String)
deriving DecidableEq, Repr

/-- The anyhow message text each security failure carries in the source. -/
def SecurityError.message : SecurityError → String
  | .absoluteNotAllowed => "Absolute paths are not allowed"
  | .configDirNotAllowed => "Access to configuration directory is not allowed"
  | .extensionBlocked e => "File extension " ++ e ++ " is blocked"
  | .pathIgnored => "Path matches ignore pattern"
  | .operationNotAllowed op => "Operation " ++ op ++ " is not allowed"

/-- security.rs SecurityValidator: the configuration snapshot, the config
directory owned by the ConfigManager, and the compiled ignore patterns
(each compiled regex modelled as the matcher function it denotes). -/
structure SecurityValidator where
  config : Config
  configDir : String
  ignore_patterns : List (String → Bool)

/-- security.rs validate_path: absolute-path check, config-directory check,
blocked-extension check, ignore-pattern check, in source order, stopping at
the first failure. -/
def validate_path (v : SecurityValidator) (path : String) : Except SecurityError Unit :=
  if isAbsolute path && !v.config.security.allow_absolute_paths then
    .error .absoluteNotAllowed
  else if !v.config.security.allow_config_path_access
      && startsWithPath path v.configDir then
    .error .configDirNotAllowed
  else
    match fileExtension path with
    | some ext =>
      if v.config.security.blocked_extensions.contains ("." ++ ext) then
        .error (.extensionBlocked ("." ++ ext))
      else if v.ignore_patterns.any (fun m => m path) then
        .error .pathIgnored
      else
        .ok ()
    | none =>
      if v.ignore_patterns.any (fun m => m path) then
        .error .pathIgnored
      else
        .ok ()

/-- The absolute-path check of validate_path in isolation. -/
def checkAbsolute (v : SecurityValidator) (path : String) : Option SecurityError :=
  if isAbsolute path && !v.config.security.allow_absolute_paths then
    some .absoluteNotAllowed
  else none

/-- The config-directory check of validate_path in isolation. -/
def checkConfigDir (v : SecurityValidator) (path : String) : Option SecurityError :=
  if !v.config.security.allow_config_path_access
      && startsWithPath path v.configDir then
    some .configDirNotAllowed
  else none

/-- The blocked-extension check of validate_path in isolation. -/
def checkExtension (v : SecurityValidator) (path : String) : Option SecurityError :=
  match fileExtension path with
  | some ext =>
    if v.config.security.blocked_extensions.contains ("." ++ ext) then
      some (.extensionBlocked ("." ++ ext))
    else none
  | none => none

/-- The ignore-pattern check of validate_path in isolation. -/
def checkIgnore (v : SecurityValidator) (path : String) : Option SecurityError :=
  if v.ignore_patterns.any (fun m => m path) then some .pathIgnored else none

/-- The first violated check among the four, in source order. -/
def firstViolation (v : SecurityValidator) (path : String) : Option SecurityError :=
  match checkAbsolute v path with
  | some e => some e
  | none =>
    match checkConfigDir v path with
    | some e => some e
    | none =>
      match checkExtension v path with
      | some e => some e
      | none => checkIgnore v path

/-- security.rs validate_operation: permission lookup over the six fixed
dotted operation kinds, any other kind denied. -/
def validate_operation (v : SecurityValidator) (operation : String) :
    Except SecurityError Unit :=
  let allowed :=
    if operation = "fs.makedir" then v.config.security.allowed_operations.fs_makedir
    else if operation = "fs.makefile" then v.config.security.allowed_operations.fs_makefile
    else if operation = "fs.writefile" then v.config.security.allowed_operations.fs_writefile
    else if operation = "fs.readfile" then v.config.security.allowed_operations.fs_readfile
    else if operation = "fs.listdir" then v.config.security.allowed_operations.fs_listdir
    else if operation = "shell" then v.config.security.allowed_operations.shell
    else false
  if !allowed then .error (.operationNotAllowed operation) else .ok ()

/-- security.rs is_whitelisted: some whitelist pattern compiles and matches
the command; a pattern that fails to compile contributes false. The regex
engine enters as the abstract compile function. -/
def is_whitelisted (compile : String → Option (String → Bool))
    (whitelist : List String) (command : String) : Bool :=
  whitelist.any fun pattern =>
    match compile pattern with
    | some regex => regex command
    | none => false

/-! ## JSON values (the serde_json surface the dispatcher touches) -/

/-- A serde_json Value. The parser itself stays external; the dispatcher
only inspects values through get, index and as_str below. -/
inductive Json where
  | null
  | bool (b : Bool)
  | num (n : Int)
  | str (s : String)
  | arr (elems : List Json)
  | obj (fields : List (String × Json))

/-- serde_json Value::get on a string key: field lookup on objects, none on
every other value. -/
def Json.get : Json → String → Option Json
  | .obj fields, key => fields.lookup key
  | _, _ => none

/-- serde_json string indexing value[key]: the field when present on an
object, Null otherwise. -/
def Json.index (j : Json) (key : String) : Json :=
  (j.get key).getD .null

/-- serde_json Value::as_str. -/
def Json.asStr : Json → Option String
  | .str s => some s
  | _ => none

/-! ## Filesystem primitives (src/fs_ops.rs)

The OS filesystem is modelled as an explicit state: an association list
from path strings to file contents plus the set of known directories. -/

/-- The filesystem state threaded through the dispatcher. -/
structure FileSystem where
  files : List (String × String)
  dirs : List String

namespace FsOperations

/-- fs_ops.rs read_file: whole-file read, with the Rust context message on
failure. -/
def read_file (fs : FileSystem) (path : String) : Except String String :=
  match fs.files.lookup path with
  | some contents => .ok contents
  | none => .error ("Failed to read file: " ++ path)

/-- fs_ops.rs write_file: create the parent directory chain, then write the
contents, replacing any previous file at the path. -/
def write_file (fs : FileSystem) (path content : String) : FileSystem :=
  let fs :=
    match parentPath path with
    | some parent => { fs with dirs := parent :: fs.dirs }
    | none => fs
  { fs with files := (path, content) :: fs.files }

/-- fs_ops.rs make_dir: recursive directory creation. -/
def make_dir (fs : FileSystem) (path : String) : FileSystem :=
  { fs with dirs := path :: fs.dirs }

/-- The immediate entry names under a directory path. -/
def childNames (fs : FileSystem) (path : String) : List String :=
  ((fs.files.map Prod.fst) ++ fs.dirs).filterMap fun p =>
    if parentPath p = some path then fileName p else none

/-- fs_ops.rs list_dir: the immediate entry names, or the Rust context
message when the directory cannot be read. -/
def list_dir (fs : FileSystem) (path : String) : Except String (List String) :=
  if fs.dirs.contains path then .ok (childNames fs path)
  else .error ("Failed to list directory: " ++ path)

end FsOperations

/-! ## Approval policy (app.rs should_execute) -/

/-- The outcome of one interactive Select prompt: the chosen option, or the
prompt failing (for example on interrupt). -/
inductive PromptResult where
  | accept
  | reject
  | cancelled
deriving DecidableEq, Repr

/-- The error an aborted approval prompt propagates. -/
inductive InputError where
  | cancelled
deriving DecidableEq, Repr

/-- What one should_execute call produces: the lines it prints and the
decision it returns. -/
structure ApprovalResult where
  lines : List String
  decision : Except InputError Bool

/-- app.rs should_execute: in accept-all mode approve unconditionally,
labelling whitelisted shell commands differently; otherwise ask the human
and return true exactly for Accept, propagating prompt failure as an
error. The whitelist is consulted only for the accept-all label. -/
def should_execute (compile : String → Option (String → Bool))
    (whitelist : List String) (accept_all : Bool)
    (op_type description : String) (prompt : PromptResult) : ApprovalResult :=
  if accept_all then
    if op_type = "shell" && is_whitelisted compile whitelist description then
      ⟨["+ Auto-approved (whitelisted): " ++ description], .ok true⟩
    else
      ⟨["+ Auto-approved: " ++ description], .ok true⟩
  else
    let header := "→ Proposed " ++ op_type ++ ": " ++ description
    match prompt with
    | .accept => ⟨[header], .ok true⟩
    | .reject => ⟨[header], .ok false⟩
    | .cancelled => ⟨[header], .error .cancelled⟩

/-! ## Tool dispatcher and conversation loop (src/cli/app.rs) -/

/-- llm.rs ToolCall: invocation id, tool name, JSON-encoded argument blob. -/
structure ToolCall where
  id : String
  name : String
  arguments : String

/-- llm.rs ChatMessage. -/
structure ChatMessage where
  role : String
  content : Option String
  tool_calls : Option (List ToolCall)
  tool_call_id : Option String
  name : Option String

/-- The failures the dispatcher can raise: a propagated security denial, a
JSON parse failure, a spawn failure, a filesystem failure, the explicit
"Unknown operation" bail, the prompt being aborted, and the process abort
an unwrap on a missing argument field would cause. -/
inductive DispatchError where
  | security (e : SecurityError)
  | jsonParse
  | spawnError (msg : String)
  | fsError (msg : String)
  | unknownOperation
  | inputCancelled
  | panic
deriving DecidableEq, Repr

/-- The external collaborators and immutable state one App run closes over:
the serde parse and serialize functions, the regex compiler, the child
process oracle (command text to captured output or spawn error), the
security validator and the accept-all flag. -/
structure Env where
  parse : String → Option Json
  serialize : Json → String
  compile : String → Option (String → Bool)
  shellRun : String → Except String String
  validator : SecurityValidator
  accept_all : Bool

/-- A naive rendering of a Json value, standing in for serde's Debug
format in the dead catch-all arm of format_operation. -/
def Json.debugString : Json → String
  | .null => "Null"
  | .bool b => "Bool(" ++ toString b ++ ")"
  | .num n => "Number(" ++ toString n ++ ")"
  | .str s => "String(" ++ s ++ ")"
  | .arr _ => "Array [..]"
  | .obj _ => "Object \x7b..\x7d"

/-- app.rs format_operation: the human-readable description of a proposed
filesystem operation. -/
def format_operation (operation : String) (args : Json) : String :=
  if operation = "fs_readfile" then
    "Read file: " ++ ((Json.index args "path").asStr.getD "")
  else if operation = "fs_writefile" then
    "Write file: " ++ ((Json.index args "path").asStr.getD "")
  else if operation = "fs_makedir" then
    "Create directory: " ++ ((Json.index args "path").asStr.getD "")
  else if operation = "fs_listdir" then
    "List directory: " ++ ((Json.index args "path").asStr.getD "")
  else operation ++ ": " ++ args.debugString

/-- app.rs add_tool_result: the tool-result message appended to the
conversation. -/
def add_tool_result (tool_call_id name result : String) : ChatMessage :=
  { role := "tool", content := some result, tool_calls := none,
    tool_call_id := some tool_call_id, name := some name }

/-- app.rs execute_action: validate the operation kind first, then branch on
it; filesystem branches re-parse the argument blob, extract the required
fields by unwrap (a missing field is a process abort), validate the path
and perform the primitive. Returns the textual result and the filesystem
state after the action. -/
def execute_action (env : Env) (fs : FileSystem) (op_type command : String) :
    Except DispatchError (String × FileSystem) :=
  match validate_operation env.validator op_type with
  | .error e => .error (.security e)
  | .ok _ =>
    if op_type = "shell" then
      match env.shellRun command with
      | .ok output => .ok (output, fs)
      | .error msg => .error (.spawnError msg)
    else if op_type = "fs_readfile" then
      match env.parse command with
      | none => .error .jsonParse
      | some args =>
        match (Json.index args "path").asStr with
        | none => .error .panic
        | some path =>
          match validate_path env.validator path with
          | .error e => .error (.security e)
          | .ok _ =>
            match FsOperations.read_file fs path with
            | .ok contents => .ok (contents, fs)
            | .error msg => .error (.fsError msg)
    else if op_type = "fs_writefile" then
      match env.parse command with
      | none => .error .jsonParse
      | some args =>
        match (Json.index args "path").asStr with
        | none => .error .panic
        | some path =>
          match (Json.index args "content").asStr with
          | none => .error .panic
          | some content =>
            match validate_path env.validator path with
            | .error e => .error (.security e)
            | .ok _ =>
              .ok ("File written successfully", FsOperations.write_file fs path content)
    else if op_type = "fs_makedir" then
      match env.parse command with
      | none => .error .jsonParse
      | some args =>
        match (Json.index args "path").asStr with
        | none => .error .panic
        | some path =>
          match validate_path env.validator path with
          | .error e => .error (.security e)
          | .ok _ =>
            .ok ("Directory created successfully", FsOperations.make_dir fs path)
    else if op_type = "fs_listdir" then
      match env.parse command with
      | none => .error .jsonParse
      | some args =>
        match (Json.index args "path").asStr with
        | none => .error .panic
        | some path =>
          match validate_path env.validator path with
          | .error e => .error (.security e)
          | .ok _ =>
            match FsOperations.list_dir fs path with
            | .ok entries => .ok (String.intercalate "\n" entries, fs)
            | .error msg => .error (.fsError msg)
    else .error .unknownOperation

/-- How the processing of one assistant turn's tool calls ends: all calls
processed (the loop queries the model again), a human rejection (the loop
returns Ok), or a propagated error (the loop returns Err). -/
inductive TurnOutcome where
  | continued
  | stopped
  | failed (e : DispatchError)
deriving DecidableEq, Repr

/-- The mutable state threaded while processing a turn: the filesystem, the
pending interactive prompt answers, and the tool-result messages produced
so far in order. -/
structure TurnState where
  fs : FileSystem
  approvals : List PromptResult
  results : List ChatMessage

/-- The answer the next interactive prompt would receive; an exhausted
script behaves as an aborted prompt. -/
def promptHead : List PromptResult → PromptResult
  | [] => .cancelled
  | p :: _ => p

/-- app.rs run, inner for-loop over one turn's tool calls: parse each blob
(failure aborts the turn), branch on the tool name, ask for approval,
stop the loop on rejection, execute on approval, and silently skip an
execute_shell call without a command string as well as any unrecognized
tool name. -/
def processToolCalls (env : Env) :
    List ToolCall → TurnState → TurnState × TurnOutcome
  | [], st => (st, .continued)
  | tc :: rest, st =>
    match env.parse tc.arguments with
    | none => (st, .failed .jsonParse)
    | some args =>
      if tc.name = "execute_shell" then
        match (args.get "command").bind Json.asStr with
        | none => processToolCalls env rest st
        | some command =>
          let res := should_execute env.compile env.validator.config.whitelist
            env.accept_all "shell" command (promptHead st.approvals)
          let st' := { st with approvals :=
            if env.accept_all then st.approvals else st.approvals.tail }
          match res.decision with
          | .error _ => (st', .failed .inputCancelled)
          | .ok false => (st', .stopped)
          | .ok true =>
            match execute_action env st'.fs "shell" command with
            | .error e => (st', .failed e)
            | .ok (result, fs') =>
              processToolCalls env rest { st' with
                fs := fs',
                results := st'.results ++ [add_tool_result tc.id "shell" result] }
      else if tc.name = "fs_readfile" ∨ tc.name = "fs_writefile"
          ∨ tc.name = "fs_makedir" ∨ tc.name = "fs_listdir" then
        let desc := format_operation tc.name args
        let res := should_execute env.compile env.validator.config.whitelist
          env.accept_all tc.name desc (promptHead st.approvals)
        let st' := { st with approvals :=
          if env.accept_all then st.approvals else st.approvals.tail }
        match res.decision with
        | .error _ => (st', .failed .inputCancelled)
        | .ok false => (st', .stopped)
        | .ok true =>
          match execute_action env st'.fs tc.name (env.serialize args) with
          | .error e => (st', .failed e)
          | .ok (result, fs') =>
            processToolCalls env rest { st' with
              fs := fs',
              results := st'.results ++ [add_tool_result tc.id tc.name result] }
      else processToolCalls env rest st

/-- How one invocation of the conversation loop ends: Ok (a rejection or a
plain-text answer), a transport failure from the model call, or a
propagated dispatch failure. -/
inductive RunExit where
  | success
  | transportError
  | failed (e : DispatchError)
deriving DecidableEq, Repr

/-- The observable outcome of one run invocation: how many times the model
was called, the final transcript, the final filesystem and the exit. -/
structure RunResult where
  modelCalls : Nat
  messages : List ChatMessage
  fs : FileSystem
  exit : RunExit

/-- app.rs run: the conversation loop. The model is an oracle script of
responses consumed one per call; an exhausted script is a transport
failure. Each response is appended to the transcript before being acted
on; a turn with tool calls is processed by processToolCalls, a plain
content response terminates the loop successfully, and a response with
neither loops again. -/
def run (env : Env) :
    List ChatMessage → List ChatMessage → TurnState → Nat → RunResult
  | [], msgs, st, calls => ⟨calls + 1, msgs, st.fs, .transportError⟩
  | r :: rest, msgs, st, calls =>
    let msgs' := msgs ++ [r]
    match r.tool_calls with
    | some tcs =>
      match processToolCalls env tcs { st with results := [] } with
      | (st', outcome) =>
        let msgs'' := msgs' ++ st'.results
        match outcome with
        | .continued => run env rest msgs'' st' (calls + 1)
        | .stopped => ⟨calls + 1, msgs'', st'.fs, .success⟩
        | .failed e => ⟨calls + 1, msgs'', st'.fs, .failed e⟩
    | none =>
      match r.content with
      | some _ => ⟨calls + 1, msgs', st.fs, .success⟩
      | none => run env rest msgs' st (calls + 1)

/-! ## Process runner (src/shell.rs) -/

/-- How the child process ended: a real exit code (code() is Some), or a
signal-terminated status carrying no code. -/
inductive ExitStatus where
  | exited (code : Int)
  | signaled
deriving DecidableEq, Repr

/-- The observable behaviour of one successfully spawned child process: the
lines each drain thread reads from its stream, in stream order, and the
exit status. -/
structure ProcessRun where
  stdoutLines : List String
  stderrLines : List String
  status : ExitStatus

/-- shell.rs drain loop: each line is appended to the accumulator followed
by a newline, starting from the empty string. -/
def drain (lines : List String) : String :=
  lines.foldl (fun acc line => acc ++ line ++ "\n") ""

namespace ShellExecutor

/-- shell.rs execute after a successful spawn: the stdout accumulator, then
the stderr accumulator, then—when the process exited with a non-zero
code—the exit-code marker line. -/
def execute (r : ProcessRun) : String :=
  let output := drain r.stdoutLines ++ drain r.stderrLines
  match r.status with
  | .exited code =>
    if code ≠ 0 then
      output ++ "\n--- Process exited with code: " ++ toString code ++ " ---\n"
    else output
  | .signaled => output

end ShellExecutor

/-! ## Concrete fixtures used by witnesses and scenario theorems -/

/-- A configuration permitting every operation kind. -/
def allAllowed : OperationPermissions :=
  { fs_makedir := true, fs_makefile := true, fs_writefile := true
    fs_readfile := true, fs_listdir := true, shell := true }

/-- The end-to-end scenario validator: ".env" blocked, absolute paths and
config-directory access disallowed, every operation kind permitted, no
ignore patterns, empty whitelist. -/
def sampleValidator : SecurityValidator :=
  { config :=
      { security :=
          { allow_absolute_paths := false
            allow_config_path_access := false
            blocked_extensions := [".env"]
            allowed_operations := allAllowed }
        whitelist := [] }
    configDir := "/home/user/.aish"
    ignore_patterns := [] }

/-- A concrete serde oracle: three known argument blobs, everything else a
parse failure. -/
def parse0 : String → Option Json := fun s =>
  if s = "argsSecrets" then some (Json.obj [("path", Json.str "secrets.env")])
  else if s = "argsShell" then some (Json.obj [("command", Json.str "ls")])
  else if s = "argsEmpty" then some (Json.obj [])
  else none

/-- The concrete environment in accept-all mode. -/
def envAuto : Env :=
  { parse := parse0
    serialize := fun _ => "argsSecrets"
    compile := fun _ => none
    shellRun := fun _ => Except.ok "ran"
    validator := sampleValidator
    accept_all := true }

/-- The concrete environment in interactive mode. -/
def envAsk : Env := { envAuto with accept_all := false }

/-- The empty filesystem. -/
def fsEmpty : FileSystem := { files := [], dirs := [] }

/-- An approved fs_readfile invocation targeting secrets.env. -/
def tcReadSecrets : ToolCall :=
  { id := "call1", name := "fs_readfile", arguments := "argsSecrets" }

/-- An execute_shell invocation whose arguments parse but carry no command
field. -/
def tcShellNoCommand : ToolCall :=
  { id := "call2", name := "execute_shell", arguments := "argsEmpty" }

/-- Turn state with no pending prompt answers. -/
def stAuto : TurnState := { fs := fsEmpty, approvals := [], results := [] }

/-- Turn state whose next prompt answer is Accept. -/
def stAccept : TurnState := { fs := fsEmpty, approvals := [.accept], results := [] }

/-! ## Claim theorems -/

/-- Claim C1: the spec says the dispatcher calls validateOperation with the
operation kind matching the tool among the six fixed kinds, and performs
the filesystem primitive when the kind is permitted and the path accepted.
In the code the dispatcher passes the tool name itself (underscored, e.g.
"fs_readfile"), which is none of the six dotted kinds, so validateOperation
takes its fail-closed default and every filesystem dispatch fails before
reaching validatePath or the primitive — even though the same permission,
addressed by its dotted kind name, is honoured. -/
theorem fs_dispatch_always_denied (env : Env) (fs : FileSystem) (name cmd : String)
    (h : name = "fs_readfile" ∨ name = "fs_writefile"
       ∨ name = "fs_makedir" ∨ name = "fs_listdir") :
    execute_action env fs name cmd = .error (.security (.operationNotAllowed name))
    ∧ (env.validator.config.security.allowed_operations.fs_readfile = true →
        validate_operation env.validator "fs.readfile" = .ok ()) := by
  constructor
  · rcases h with h | h | h | h <;> subst h <;> rfl
  · intro hp
    simp [validate_operation, hp]

/-- Witness for fs_dispatch_always_denied at the concrete accept-all
environment and a readfile dispatch. -/
theorem fs_dispatch_always_denied_witness :
    execute_action envAuto fsEmpty "fs_readfile" "argsSecrets"
        = .error (.security (.operationNotAllowed "fs_readfile"))
    ∧ (envAuto.validator.config.security.allowed_operations.fs_readfile = true →
        validate_operation envAuto.validator "fs.readfile" = .ok ()) :=
  fs_dispatch_always_denied envAuto fsEmpty "fs_readfile" "argsSecrets" (Or.inl rfl)

/-- Claim C2: the spec's round-trip property (write a file, read it back,
get the content) does hold of the filesystem primitives themselves, but
the dispatcher can never deliver it: an approved fs_writefile or
fs_readfile dispatch always fails at validateOperation because the
dispatcher passes the underscored tool name (see fs_dispatch_always_denied),
so the write is never performed. -/
theorem write_read_roundtrip_unreachable (env : Env) (fs : FileSystem)
    (path content cmd cmd' : String) :
    FsOperations.read_file (FsOperations.write_file fs path content) path
        = .ok content
    ∧ execute_action env fs "fs_writefile" cmd
        = .error (.security (.operationNotAllowed "fs_writefile"))
    ∧ execute_action env fs "fs_readfile" cmd'
        = .error (.security (.operationNotAllowed "fs_readfile")) := by
  refine ⟨?_, rfl, rfl⟩
  unfold FsOperations.write_file FsOperations.read_file
  cases parentPath path <;> simp [List.lookup]

/-- Claim C3: with ".env" blocked, an approved fs_readfile of "secrets.env"
is indeed denied in both approval modes, but by the operation-kind
mismatch, not the extension check: the surfaced error says the operation
is not allowed and never names ".env". The extension check itself, had it
been reached, would have produced the error naming ".env". -/
theorem blocked_env_read_denied_without_naming_extension :
    (processToolCalls envAuto [tcReadSecrets] stAuto).2
        = .failed (.security (.operationNotAllowed "fs_readfile"))
    ∧ (processToolCalls envAsk [tcReadSecrets] stAccept).2
        = .failed (.security (.operationNotAllowed "fs_readfile"))
    ∧ validate_path sampleValidator "secrets.env"
        = .error (.extensionBlocked ".env")
    ∧ (SecurityError.operationNotAllowed "fs_readfile").message
        = "Operation fs_readfile is not allowed" :=
  ⟨rfl, rfl, rfl, rfl⟩

/-- Claim C5: should_execute returns true in accept-all mode for every
operation kind and description regardless of whitelist status; in
interactive mode it returns exactly the human's binary choice (true only
for Accept); and whitelist membership has no effect on the returned value
in either mode. -/
theorem should_execute_spec :
    (∀ (compile : String → Option (String → Bool)) (whitelist : List String)
        (op desc : String) (prompt : PromptResult),
       (should_execute compile whitelist true op desc prompt).decision = .ok true)
  ∧ (∀ (compile : String → Option (String → Bool)) (whitelist : List String)
        (op desc : String),
       (should_execute compile whitelist false op desc .accept).decision = .ok true
       ∧ (should_execute compile whitelist false op desc .reject).decision = .ok false)
  ∧ (∀ (c₁ c₂ : String → Option (String → Bool)) (w₁ w₂ : List String)
        (a : Bool) (op desc : String) (prompt : PromptResult),
       (should_execute c₁ w₁ a op desc prompt).decision
         = (should_execute c₂ w₂ a op desc prompt).decision) := by
  refine ⟨?_, ?_, ?_⟩
  · intro compile whitelist op desc prompt
    simp only [should_execute, if_true]
    split <;> rfl
  · intro compile whitelist op desc
    exact ⟨rfl, rfl⟩
  · intro c₁ c₂ w₁ w₂ a op desc prompt
    cases a
    · rfl
    · simp only [should_execute, if_true]
      split <;> split <;> rfl

/-- Claim C6: with allow_absolute_paths = false, validatePath rejects every
absolute path; it accepts every relative path violating none of the
config-directory, blocked-extension and ignore-pattern checks; and it
equals the first violated check in the fixed order absolute-path,
config-directory, extension, ignore-pattern, so the first failure's error
is the one surfaced. -/
theorem validate_path_spec (v : SecurityValidator) :
    (v.config.security.allow_absolute_paths = false →
       ∀ path, isAbsolute path = true →
         validate_path v path = .error .absoluteNotAllowed)
  ∧ (∀ path, isAbsolute path = false → checkConfigDir v path = none →
       checkExtension v path = none → checkIgnore v path = none →
       validate_path v path = .ok ())
  ∧ (∀ path, validate_path v path =
       match firstViolation v path with
       | some e => .error e
       | none => .ok ()) := by
  have core : ∀ path, validate_path v path =
      match firstViolation v path with
      | some e => .error e
      | none => .ok () := by
    intro path
    unfold validate_path firstViolation checkAbsolute checkConfigDir
      checkExtension checkIgnore
    cases h1 : isAbsolute path && !v.config.security.allow_absolute_paths
    · cases h2 : !v.config.security.allow_config_path_access
          && startsWithPath path v.configDir
      · cases hx : fileExtension path with
        | none =>
          by_cases h4 : ∃ x ∈ v.ignore_patterns, x path = true <;>
            simp [h1, h2, hx, h4]
        | some ext =>
          by_cases h3 : ("." ++ ext) ∈ v.config.security.blocked_extensions
          · simp [h1, h2, hx, h3]
          · by_cases h4 : ∃ x ∈ v.ignore_patterns, x path = true <;>
              simp [h1, h2, hx, h3, h4]
      · simp [h1, h2]
    · simp [h1]
  refine ⟨?_, ?_, core⟩
  · intro hflag path hpath
    simp [validate_path, hpath, hflag]
  · intro path h1 h2 h3 h4
    have hA : checkAbsolute v path = none := by simp [checkAbsolute, h1]
    rw [core path]
    simp [firstViolation, hA, h2, h3, h4]

/-- Witness for validate_path_spec at the scenario validator: an absolute
path is rejected and a clean relative path accepted. -/
theorem validate_path_spec_witness :
    validate_path sampleValidator "/etc/passwd" = .error .absoluteNotAllowed
    ∧ validate_path sampleValidator "ok.txt" = .ok () :=
  ⟨(validate_path_spec sampleValidator).1 rfl "/etc/passwd" rfl,
   (validate_path_spec sampleValidator).2.1 "ok.txt" rfl rfl rfl rfl⟩

/-- Claim C8: isWhitelisted returns true exactly when the command matches at
least one pattern under the regex engine, and a pattern that fails to
compile never matches any command (the function is total, so it can never
panic). -/
theorem is_whitelisted_spec :
    (∀ (compile : String → Option (String → Bool)) (whitelist : List String)
        (cmd : String),
       is_whitelisted compile whitelist cmd = true ↔
         ∃ p ∈ whitelist, ∃ m, compile p = some m ∧ m cmd = true)
  ∧ (∀ (compile : String → Option (String → Bool)) (whitelist : List String)
        (cmd : String),
       (∀ p ∈ whitelist, compile p = none) →
       is_whitelisted compile whitelist cmd = false) := by
  have main : ∀ (compile : String → Option (String → Bool))
      (whitelist : List String) (cmd : String),
      is_whitelisted compile whitelist cmd = true ↔
        ∃ p ∈ whitelist, ∃ m, compile p = some m ∧ m cmd = true := by
    intro compile whitelist cmd
    unfold is_whitelisted
    rw [List.any_eq_true]
    constructor
    · rintro ⟨p, hp, hmatch⟩
      refine ⟨p, hp, ?_⟩
      cases hc : compile p with
      | none => rw [hc] at hmatch; simp at hmatch
      | some m =>
        refine ⟨m, rfl, ?_⟩
        rw [hc] at hmatch
        exact hmatch
    · rintro ⟨p, hp, m, hc, hm⟩
      refine ⟨p, hp, ?_⟩
      rw [hc]
      exact hm
  refine ⟨main, ?_⟩
  intro compile whitelist cmd hall
  cases hiw : is_whitelisted compile whitelist cmd
  · rfl
  · exfalso
    obtain ⟨p, hp, m, hc, _⟩ := (main compile whitelist cmd).mp hiw
    rw [hall p hp] at hc
    exact Option.noConfusion hc

/-- The drain loop accumulates each captured line followed by a newline, in
stream order. -/
theorem drain_eq (lines : List String) :
    drain lines = String.join (lines.map (fun l => l ++ "\n")) := by
  unfold drain String.join
  rw [List.foldl_map]
  congr 1
  funext acc l
  exact String.append_assoc acc l "\n"

/-- Claim C9: for every successfully spawned process, execute returns the
stdout accumulator followed by the stderr accumulator, each captured line
appended with a trailing newline in the order read from its stream, with
the "Process exited with code: N" marker appended exactly when the exit
status is a non-zero code N. -/
theorem shell_execute_spec (r : ProcessRun) :
    ShellExecutor.execute r =
      String.join (r.stdoutLines.map (fun l => l ++ "\n"))
        ++ String.join (r.stderrLines.map (fun l => l ++ "\n"))
        ++ (match r.status with
            | .exited code =>
              if code ≠ 0 then
                "\n--- Process exited with code: " ++ toString code ++ " ---\n"
              else ""
            | .signaled => "") := by
  unfold ShellExecutor.execute
  rw [drain_eq, drain_eq]
  cases r.status with
  | exited code =>
    by_cases hc : code = 0
    · subst hc
      simp [String.append_empty]
    · simp [hc, String.append_assoc]
  | signaled => simp [String.append_empty]

/-- A dot-free character list has no last-dot split. -/
theorem takeAfterLastDot_of_not_mem {l : List Char} (h : '.' ∉ l) :
    takeAfterLastDot l = none := by
  induction l with
  | nil => rfl
  | cons c cs ih =>
    rw [List.mem_cons, not_or] at h
    obtain ⟨hne, hcs⟩ := h
    unfold takeAfterLastDot
    rw [ih hcs]
    simp [Ne.symm hne]

/-- Claim C10: a path whose final component begins with a dot and contains
no further dot has no extension under the Rust extension rule, so the
blocked-extensions check can never reject it, whatever the configuration
and blocked set. -/
theorem dotfile_never_extension_blocked (path f : String) (rest : List Char)
    (hf : fileName path = some f) (hd : f.data = '.' :: rest)
    (hnd : '.' ∉ rest) :
    fileExtension path = none
    ∧ ∀ (v : SecurityValidator) (e : String),
        validate_path v path ≠ .error (.extensionBlocked e) := by
  have hsplit : takeAfterLastDot f.data = some ([], rest) := by
    rw [hd]
    unfold takeAfterLastDot
    rw [takeAfterLastDot_of_not_mem hnd]
    simp
  have hext : fileExtension path = none := by
    unfold fileExtension
    rw [hf]
    simp [hsplit]
  refine ⟨hext, ?_⟩
  intro v e hcontra
  unfold validate_path at hcontra
  split at hcontra
  · simp at hcontra
  · split at hcontra
    · simp at hcontra
    · split at hcontra
      next ext hx =>
        rw [hext] at hx
        exact Option.noConfusion hx
      next hx =>
        split at hcontra <;> simp at hcontra

/-- Witness for dotfile_never_extension_blocked at the literal path ".env"
with ".env" in the blocked set of the scenario validator. -/
theorem dotfile_never_extension_blocked_witness :
    fileExtension ".env" = none
    ∧ validate_path sampleValidator ".env"
        ≠ .error (.extensionBlocked ".env") :=
  ⟨(dotfile_never_extension_blocked ".env" ".env" ['e', 'n', 'v']
      (by decide) rfl (by decide)).1,
   (dotfile_never_extension_blocked ".env" ".env" ['e', 'n', 'v']
      (by decide) rfl (by decide)).2 sampleValidator ".env"⟩

/-- A tool invocation that reaches the approval prompt rather than being
silently skipped: an execute_shell call whose parsed arguments carry a
command string, or any of the four filesystem tools. -/
def requestsApproval (tc : ToolCall) (args : Json) : Prop :=
  (tc.name = "execute_shell" ∧ ∃ c, (args.get "command").bind Json.asStr = some c)
  ∨ tc.name = "fs_readfile" ∨ tc.name = "fs_writefile"
  ∨ tc.name = "fs_makedir" ∨ tc.name = "fs_listdir"

/-- Claim C4: for an assistant turn carrying tool invocations A, B, C in
emission order, where A is approved and executes and the human rejects B,
exactly A executes (the transcript gains only A's tool result), C is never
examined, the filesystem is unchanged, and the loop terminates
successfully after exactly one model call, whatever responses the model
script still holds. -/
theorem run_stops_at_first_rejection
    (env : Env) (resp : ChatMessage) (rest msgs0 : List ChatMessage)
    (fs0 : FileSystem) (A B C : ToolCall) (argsA argsB : Json) (cA rA : String)
    (henv : env.accept_all = false)
    (hresp : resp.tool_calls = some [A, B, C])
    (hAname : A.name = "execute_shell")
    (hAargs : env.parse A.arguments = some argsA)
    (hAcmd : (argsA.get "command").bind Json.asStr = some cA)
    (hshell : env.validator.config.security.allowed_operations.shell = true)
    (hArun : env.shellRun cA = .ok rA)
    (hBargs : env.parse B.arguments = some argsB)
    (hBask : requestsApproval B argsB) :
    run env (resp :: rest) msgs0
        { fs := fs0, approvals := [.accept, .reject], results := [] } 0
      = { modelCalls := 1
          messages := msgs0 ++ [resp] ++ [add_tool_result A.id "shell" rA]
          fs := fs0
          exit := .success } := by
  have hexecA : execute_action env fs0 "shell" cA = .ok (rA, fs0) := by
    simp [execute_action, validate_operation, hshell, hArun]
  have hstep : processToolCalls env [A, B, C]
      { fs := fs0, approvals := [.accept, .reject], results := [] }
      = ({ fs := fs0, approvals := []
           results := [add_tool_result A.id "shell" rA] }, .stopped) := by
    rcases hBask with ⟨hBname, cB, hBcmd⟩ | hBname | hBname | hBname | hBname <;>
      simp [processToolCalls, hAargs, hAname, hAcmd, should_execute, promptHead,
        henv, hexecA, hBargs, *]
  simp [run, hresp, hstep]

/-- A shell invocation running the concrete command of parse0. -/
def tcShellA : ToolCall := { id := "a1", name := "execute_shell", arguments := "argsShell" }

/-- A trailing shell invocation the rejected turn never reaches. -/
def tcShellC : ToolCall := { id := "c1", name := "execute_shell", arguments := "argsShell" }

/-- The concrete assistant turn carrying the three invocations of the
rejection scenario. -/
def respRejectB : ChatMessage :=
  { role := "assistant", content := none
    tool_calls := some [tcShellA, tcReadSecrets, tcShellC]
    tool_call_id := none, name := none }

/-- Witness for run_stops_at_first_rejection: a concrete interactive-mode
turn whose three invocations are a shell command, an fs_readfile the human
rejects, and a trailing shell command that is never reached. -/
theorem run_stops_at_first_rejection_witness :
    run envAsk [respRejectB] []
        { fs := fsEmpty, approvals := [.accept, .reject], results := [] } 0
      = { modelCalls := 1
          messages := [] ++ [respRejectB] ++ [add_tool_result "a1" "shell" "ran"]
          fs := fsEmpty
          exit := .success } :=
  run_stops_at_first_rejection envAsk respRejectB [] [] fsEmpty
    tcShellA tcReadSecrets tcShellC
    (Json.obj [("command", Json.str "ls")])
    (Json.obj [("path", Json.str "secrets.env")])
    "ls" "ran" rfl rfl rfl rfl rfl rfl rfl rfl (Or.inr (Or.inl rfl))

/-- Claim C7 (amended): a JSON argument blob that fails to parse aborts the
current turn with an error whatever the tool name; but a parsed blob
lacking a required field is not a distinct dispatch error: execute_shell
without a command string is silently skipped, and a filesystem tool
proceeds to dispatch, where it fails at operation validation as a
security denial rather than as an argument error. -/
theorem argument_error_paths (env : Env) (tc : ToolCall) (rest : List ToolCall)
    (st : TurnState) (args : Json) :
    (env.parse tc.arguments = none →
       processToolCalls env (tc :: rest) st = (st, .failed .jsonParse))
  ∧ (tc.name = "execute_shell" → env.parse tc.arguments = some args →
       (args.get "command").bind Json.asStr = none →
       processToolCalls env (tc :: rest) st = processToolCalls env rest st)
  ∧ (tc.name = "fs_readfile" → env.parse tc.arguments = some args →
       env.accept_all = true →
       processToolCalls env (tc :: rest) st
         = (st, .failed (.security (.operationNotAllowed "fs_readfile")))) := by
  refine ⟨?_, ?_, ?_⟩
  · intro hp
    simp [processToolCalls, hp]
  · intro hname hp hcmd
    simp [processToolCalls, hname, hp, hcmd]
  · intro hname hp hacc
    simp [processToolCalls, hname, hp, hacc, should_execute, execute_action,
      validate_operation]

/-- Counterexample to claim C7 as stated: this execute_shell invocation's
arguments parse but lack the required command field, yet the dispatcher
raises no error at all — the invocation is silently skipped and the turn
continues as if it held no such call. -/
theorem missing_command_silently_skipped :
    processToolCalls envAsk [tcShellNoCommand] stAccept
      = (stAccept, .continued) := rfl

end Aish
